import Mathlib

/-!
Verification of the bustub buffer pool / extendible hash table core.

The definitions below are a shallow embedding of the C++ sources:
  src/buffer/lru_replacer.cpp
  src/buffer/buffer_pool_manager_instance.cpp
  src/buffer/parallel_buffer_pool_manager.cpp
  src/container/hash/extendible_hash_table.cpp
Machine page ids (page_id_t, a 32-bit int with INVALID_PAGE_ID = -1) are
modelled as Int; frame ids and sizes as Nat.  Page payloads are an abstract
type `D` with `default : D` standing for the zeroed page (ResetMemory /
reading an unwritten disk block).  All state-passing is explicit: each
operation takes the instance state and returns its C++ return value together
with the updated state.
-/

set_option maxRecDepth 10000

/-- One frame of the buffer pool (class Page): page id (`-1` = INVALID),
pin count, dirty flag and the PAGE_SIZE byte payload (abstracted to `D`). -/
structure Frame (D : Type) where
  page_id : Int
  pin_count : Nat
  is_dirty : Bool
  data : D
deriving DecidableEq, Repr

instance frameInhabited (D : Type) [Inhabited D] : Inhabited (Frame D) :=
  ⟨⟨-1, 0, false, default⟩⟩

/-- State of one BufferPoolManagerInstance together with its LRUReplacer and
the disk manager's file contents (an association list page_id ↦ payload;
a page never written reads back as the zeroed payload `default`). -/
structure BPI (D : Type) where
  pool_size : Nat
  num_instances : Nat
  instance_index : Nat
  next_page_id : Int
  pages : List (Frame D)
  page_table : List (Int × Nat)
  free_list : List Nat
  lru : List Nat
  lru_limit : Nat
  disk : List (Int × D)
deriving DecidableEq

/-- `std::unordered_map::find` on the page table. -/
def ptLookup (pt : List (Int × Nat)) (p : Int) : Option Nat :=
  match pt with
  | [] => none
  | (q, f) :: rest => if q = p then some f else ptLookup rest p

/-- `std::unordered_map::erase` on the page table (keys are unique). -/
def ptErase (pt : List (Int × Nat)) (p : Int) : List (Int × Nat) :=
  pt.filter (fun e => e.1 ≠ p)

/-- `page_table_[p] = f` (insert or assign). -/
def ptSet (pt : List (Int × Nat)) (p : Int) (f : Nat) : List (Int × Nat) :=
  ptErase pt p ++ [(p, f)]

/-- `DiskManager::WritePage`. -/
def dWrite (disk : List (Int × D)) (p : Int) (d : D) : List (Int × D) :=
  disk.filter (fun e => e.1 ≠ p) ++ [(p, d)]

/-- Lookup of the current on-disk payload of page `p`, if it was ever written. -/
def dLookup (disk : List (Int × D)) (p : Int) : Option D :=
  match disk with
  | [] => none
  | (q, d) :: rest => if q = p then some d else dLookup rest p

/-- `DiskManager::ReadPage`: a block never written reads back zeroed. -/
def dRead [Inhabited D] (disk : List (Int × D)) (p : Int) : D :=
  (dLookup disk p).getD default

/-- `LRUReplacer::Victim`: pop the front of the queue. -/
def lruVictim (lru : List Nat) : Option (Nat × List Nat) :=
  match lru with
  | [] => none
  | f :: rest => some (f, rest)

/-- `LRUReplacer::Pin`: `std::list::remove` erases every occurrence. -/
def lruPin (lru : List Nat) (f : Nat) : List Nat :=
  lru.filter (fun g => g ≠ f)

/-- `LRUReplacer::Unpin`: no-op if present; otherwise append, evicting the
front first when the queue is at capacity. -/
def lruUnpin (lru : List Nat) (limit : Nat) (f : Nat) : List Nat :=
  if lru.contains f then lru
  else if lru.length = limit then lru.drop 1 ++ [f] else lru ++ [f]

/-- `BufferPoolManagerInstance::BufferPoolManagerInstance`: all frames empty
and on the free list, allocator starts at `instance_index` striding by
`num_instances`, the replacer's capacity is the pool size, fresh disk file. -/
def mkBPI (D : Type) [Inhabited D] (pool_size num_instances instance_index : Nat) : BPI D :=
  { pool_size := pool_size
    num_instances := num_instances
    instance_index := instance_index
    next_page_id := instance_index
    pages := List.replicate pool_size default
    page_table := []
    free_list := List.range pool_size
    lru := []
    lru_limit := pool_size
    disk := [] }

/-- `BufferPoolManagerInstance::FlushPgImp`: if the page table holds the id,
write the frame's bytes to disk, clear the dirty flag and return true;
otherwise return false. -/
def flushPgImp [Inhabited D] (st : BPI D) (p : Int) : Bool × BPI D :=
  match ptLookup st.page_table p with
  | some f =>
      let pg := st.pages.getD f default
      (true, { st with
                 disk := dWrite st.disk p pg.data
                 pages := st.pages.set f { pg with is_dirty := false } })
  | none => (false, st)

/-- `BufferPoolManagerInstance::FlushAllPgsImp`: clear each resident frame's
dirty flag and write it to disk, iterating the page table. -/
def flushAllPgsImp [Inhabited D] (st : BPI D) : BPI D :=
  st.page_table.foldl
    (fun acc e =>
      let pg := acc.pages.getD e.2 default
      { acc with
          pages := acc.pages.set e.2 { pg with is_dirty := false }
          disk := dWrite acc.disk e.1 pg.data })
    st

/-- `AllocatePage`: hand out `next_page_id_` and stride by `num_instances_`. -/
def allocatePage (st : BPI D) : Int × BPI D :=
  (st.next_page_id, { st with next_page_id := st.next_page_id + st.num_instances })

/-- Shared tail of NewPgImp once a victim frame `f` has been obtained: erase
the old page-table entry, then (too late) attempt the dirty write-back,
allocate a fresh id, reset the frame, pin it in the replacer and insert it
into the page table.  Mirrors lines 99-115 of the source. -/
def newPgCont [Inhabited D] (st : BPI D) (f : Nat) : Option (Int × Nat) × BPI D :=
  let pg := st.pages.getD f default
  let st1 :=
    if pg.page_id ≠ -1 then
      let stE := { st with page_table := ptErase st.page_table pg.page_id }
      if pg.is_dirty then (flushPgImp stE pg.page_id).2 else stE
    else st
  let a := allocatePage st1
  let pid := a.1
  let st2 := a.2
  let st3 := { st2 with
                 pages := st2.pages.set f
                   { page_id := pid, pin_count := 1, is_dirty := false, data := default } }
  let st4 := { st3 with lru := lruPin st3.lru f }
  let st5 := { st4 with page_table := ptSet st4.page_table pid f }
  (some (pid, f), st5)

/-- `BufferPoolManagerInstance::NewPgImp`: fail if every frame holds a valid
page and is pinned; otherwise take a victim from the free list's front,
else from the replacer; evict, allocate and install a fresh zeroed page
with pin count 1.  Returns the new page id and frame index. -/
def newPgImp [Inhabited D] (st : BPI D) : Option (Int × Nat) × BPI D :=
  let allPinned := st.pages.all (fun pg => !(pg.page_id = -1 ∨ pg.pin_count = 0 : Bool))
  if allPinned then (none, st)
  else
    match st.free_list with
    | f :: rest => newPgCont { st with free_list := rest } f
    | [] =>
        match lruVictim st.lru with
        | none => (none, st)
        | some (f, lru') => newPgCont { st with lru := lru' } f

/-- Shared tail of FetchPgImp on a miss once a victim frame `f` is obtained:
evict (erase page-table entry, then the too-late dirty write-back), reset
the frame for the requested id, read its payload from disk, pin it in the
replacer and insert it into the page table.  Mirrors lines 139-156. -/
def fetchPgCont [Inhabited D] (st : BPI D) (p : Int) (f : Nat) : Option Nat × BPI D :=
  let pg := st.pages.getD f default
  let st1 :=
    if pg.page_id ≠ -1 then
      let stE := { st with page_table := ptErase st.page_table pg.page_id }
      if pg.is_dirty then (flushPgImp stE pg.page_id).2 else stE
    else st
  let st2 := { st1 with
                 pages := st1.pages.set f
                   { page_id := p, pin_count := 1, is_dirty := false,
                     data := dRead st1.disk p } }
  let st3 := { st2 with lru := lruPin st2.lru f }
  let st4 := { st3 with page_table := ptSet st3.page_table p f }
  (some f, st4)

/-- `BufferPoolManagerInstance::FetchPgImp`: on a page-table hit return the
frame immediately (no pin increment, no replacer call); on a miss obtain a
victim (free list first, then replacer), evict it and read the page in. -/
def fetchPgImp [Inhabited D] (st : BPI D) (p : Int) : Option Nat × BPI D :=
  match ptLookup st.page_table p with
  | some f => (some f, st)
  | none =>
      match st.free_list with
      | f :: rest => fetchPgCont { st with free_list := rest } p f
      | [] =>
          match lruVictim st.lru with
          | none => (none, st)
          | some (f, lru') => fetchPgCont { st with lru := lru' } p f

/-- `BufferPoolManagerInstance::UnpinPgImp`: false if the page is absent or
its pin count is 0; otherwise decrement the pin count, overwrite the dirty
flag with the caller's flag, and hand the frame to the replacer when the
pin count reaches 0. -/
def unpinPgImp [Inhabited D] (st : BPI D) (p : Int) (is_dirty : Bool) : Bool × BPI D :=
  match ptLookup st.page_table p with
  | none => (false, st)
  | some f =>
      let pg := st.pages.getD f default
      if pg.pin_count = 0 then (false, st)
      else
        let pg' := { pg with pin_count := pg.pin_count - 1, is_dirty := is_dirty }
        let st1 := { st with pages := st.pages.set f pg' }
        let st2 :=
          if pg'.pin_count = 0 then { st1 with lru := lruUnpin st1.lru st1.lru_limit f }
          else st1
        (true, st2)

/-- `BufferPoolManagerInstance::DeletePgImp`: true if absent; false if still
pinned; otherwise reset the frame, erase the page-table entry and push the
frame onto the free list.  (DeallocatePage is a no-op: the spec calls the
allocator's free pool "notional".)  The frame is NOT removed from the
replacer queue. -/
def deletePgImp [Inhabited D] (st : BPI D) (p : Int) : Bool × BPI D :=
  match ptLookup st.page_table p with
  | none => (true, st)
  | some f =>
      let pg := st.pages.getD f default
      if pg.pin_count ≠ 0 then (false, st)
      else
        (true, { st with
                   pages := st.pages.set f
                     { page_id := -1, pin_count := 0, is_dirty := false, data := default }
                   page_table := ptErase st.page_table p
                   free_list := st.free_list ++ [f] })

/-- A client writing bytes through the Page pointer returned by
NewPage/FetchPage (e.g. `memcpy(page->GetData(), ...)`): only the payload
of that frame changes. -/
def userWrite [Inhabited D] (st : BPI D) (f : Nat) (d : D) : BPI D :=
  let pg := st.pages.getD f default
  { st with pages := st.pages.set f { pg with data := d } }

/-- Number of frames currently pinned (valid page with positive pin count). -/
def pinnedCount (st : BPI D) : Nat :=
  (st.pages.filter (fun pg => decide (0 < pg.pin_count))).length

/-! ### Concrete buffer-pool traces (payload type `Nat`) -/

/-- C1 trace, pool of one frame: `NewPage` (page 0), client writes payload 42,
`UnpinPage(0, dirty := true)`, then a second `NewPage` that must evict the
dirty page 0. -/
def c1AfterUnpin : BPI Nat :=
  (unpinPgImp (userWrite (newPgImp (mkBPI Nat 1 1 0)).2 0 42) 0 true).2

/-- The second `NewPage` of the C1 trace. -/
def c1Final : Option (Int × Nat) × BPI Nat := newPgImp c1AfterUnpin

/-- C2 trace, pool of one frame: `NewPage` (page 0), `UnpinPage(0, false)`
(frame enters the replacer), `DeletePage(0)`. -/
def c2Final : Bool × BPI Nat :=
  deletePgImp (unpinPgImp (newPgImp (mkBPI Nat 1 1 0)).2 0 false).2 0

/-- C3 counterexample state: one frame holding page 0 with pin count 1 and
dirty flag already true. -/
def c3cex : BPI Nat :=
  { pool_size := 1, num_instances := 1, instance_index := 0, next_page_id := 1
    pages := [{ page_id := 0, pin_count := 1, is_dirty := true, data := 42 }]
    page_table := [(0, 0)], free_list := [], lru := [], lru_limit := 1, disk := [] }

/-! ### Claims C1, C2, C3, C8, C10 -/

/-- C1: the claim says an evicted dirty victim's bytes reach the disk under
its page id before the frame is reused.  The code erases the page-table
entry first, so the subsequent FlushPgImp lookup fails and nothing is ever
written: after the eviction of dirty page 0 the disk still has no entry
for page 0 (while the victim frame was dirty with payload 42). -/
theorem c1_dirty_victim_lost :
    (newPgImp (mkBPI Nat 1 1 0)).1 = some (0, 0) ∧
    (c1AfterUnpin.pages.getD 0 default).is_dirty = true ∧
    (c1AfterUnpin.pages.getD 0 default).data = 42 ∧
    c1Final.1 = some (1, 0) ∧
    dLookup c1Final.2.disk 0 = none := by
  decide

/-- C2: the claim says after every public operation each frame is in exactly
one of {free list, replacer, pinned} and the three counts sum to the pool
size.  After `DeletePage` succeeds on an unpinned resident page the frame
sits on the free list AND in the replacer queue: counts sum to 2 in a pool
of size 1. -/
theorem c2_delete_double_membership :
    c2Final.1 = true ∧
    c2Final.2.free_list = [0] ∧
    c2Final.2.lru = [0] ∧
    pinnedCount c2Final.2 = 0 ∧
    c2Final.2.free_list.length + c2Final.2.lru.length + pinnedCount c2Final.2 = 2 ∧
    c2Final.2.pool_size = 1 := by
  decide

/-- C3 counterexample: on a frame with pin count 1 and dirty flag true,
`UnpinPage(-, false)` returns true but CLEARS the dirty flag, where the
claim's OR rule (`old ∨ user`) demands it stay true. -/
theorem c3_counterexample :
    (c3cex.pages.getD 0 default).is_dirty = true ∧
    0 < (c3cex.pages.getD 0 default).pin_count ∧
    (unpinPgImp c3cex 0 false).1 = true ∧
    ((unpinPgImp c3cex 0 false).2.pages.getD 0 default).is_dirty = false := by
  decide

/-- C3 amended: for a resident page with positive pin count, UnpinPage
decrements the pin count, OVERWRITES the dirty flag with the caller's flag
(so unpinning with false clears an existing true), hands the frame to the
replacer exactly when the pin count reaches 0, and returns true; it
returns false (without changing state) when the page is absent or its pin
count is 0. -/
theorem c3_unpin_assigns_dirty (D : Type) [Inhabited D] (st : BPI D) (p : Int) (d : Bool) :
    (∀ f, ptLookup st.page_table p = some f → f < st.pages.length →
      0 < (st.pages.getD f default).pin_count →
      (unpinPgImp st p d).1 = true ∧
      ((unpinPgImp st p d).2.pages.getD f default).pin_count
        = (st.pages.getD f default).pin_count - 1 ∧
      ((unpinPgImp st p d).2.pages.getD f default).is_dirty = d ∧
      (unpinPgImp st p d).2.lru
        = (if (st.pages.getD f default).pin_count = 1
           then lruUnpin st.lru st.lru_limit f else st.lru)) ∧
    (ptLookup st.page_table p = none → unpinPgImp st p d = (false, st)) ∧
    (∀ f, ptLookup st.page_table p = some f → (st.pages.getD f default).pin_count = 0 →
      unpinPgImp st p d = (false, st)) := by
  refine ⟨?_, ?_, ?_⟩
  · intro f hf hlen hpin
    have hne : ¬ (st.pages.getD f default).pin_count = 0 := Nat.pos_iff_ne_zero.mp hpin
    have hget : ∀ (pg : Frame D), (st.pages.set f pg).getD f default = pg := by
      intro pg
      rw [List.getD_eq_getElem?_getD, List.getElem?_set_eq_of_lt pg hlen]
      rfl
    refine ⟨?_, ?_, ?_, ?_⟩
    · simp only [unpinPgImp, hf]
      rw [if_neg hne]
    · simp only [unpinPgImp, hf]
      rw [if_neg hne]
      by_cases h1 : (st.pages.getD f default).pin_count - 1 = 0
      · rw [if_pos h1]; simp only [hget]
      · rw [if_neg h1]; simp only [hget]
    · simp only [unpinPgImp, hf]
      rw [if_neg hne]
      by_cases h1 : (st.pages.getD f default).pin_count - 1 = 0
      · rw [if_pos h1]; simp only [hget]
      · rw [if_neg h1]; simp only [hget]
    · simp only [unpinPgImp, hf]
      rw [if_neg hne]
      by_cases h1 : (st.pages.getD f default).pin_count - 1 = 0
      · rw [if_pos h1]
        have heq1 : (st.pages.getD f default).pin_count = 1 := by omega
        rw [if_pos heq1]
      · rw [if_neg h1]
        have hne1 : ¬ (st.pages.getD f default).pin_count = 1 := by omega
        rw [if_neg hne1]
  · intro h; simp [unpinPgImp, h]
  · intro f hf h0
    simp only [unpinPgImp, hf]
    rw [if_pos h0]

/-- C3 amended, witness: applied to the concrete counterexample state. -/
theorem c3_unpin_assigns_dirty_witness :
    (unpinPgImp c3cex 0 false).1 = true ∧
    ((unpinPgImp c3cex 0 false).2.pages.getD 0 default).is_dirty = false ∧
    unpinPgImp c3cex 5 false = (false, c3cex) := by
  have h := c3_unpin_assigns_dirty Nat c3cex 0 false
  have h5 := c3_unpin_assigns_dirty Nat c3cex 5 false
  exact ⟨(h.1 0 (by decide) (by decide) (by decide)).1,
         (h.1 0 (by decide) (by decide) (by decide)).2.2.1,
         h5.2.1 (by decide)⟩

/-- C8: on a page-table hit, FetchPage returns the frame holding the page and
leaves the whole instance state (pin count, replacer, everything)
unchanged, exactly as the source behaves on a cache hit. -/
theorem c8_fetch_hit_no_state_change (D : Type) [Inhabited D] (st : BPI D) (p : Int) (f : Nat)
    (hf : ptLookup st.page_table p = some f) :
    fetchPgImp st p = (some f, st) := by
  simp [fetchPgImp, hf]

/-- C8 witness: fetching resident page 0 of the concrete state `c3cex`. -/
theorem c8_fetch_hit_witness : fetchPgImp c3cex 0 = (some 0, c3cex) :=
  c8_fetch_hit_no_state_change Nat c3cex 0 0 (by decide)

/-- Failure of `newPgCont` never happens: once a victim frame is obtained the
operation succeeds. -/
theorem newPgCont_ne_none (D : Type) [Inhabited D] (st : BPI D) (f : Nat) :
    (newPgCont st f).1 ≠ none := by
  intro h
  exact Option.noConfusion h

/-- Helper: a failing NewPage leaves the instance untouched. -/
theorem newPgImp_fail_frozen (D : Type) [Inhabited D] (st : BPI D)
    (h : (newPgImp st).1 = none) : (newPgImp st).2 = st := by
  simp only [newPgImp] at h ⊢
  by_cases hap : (st.pages.all (fun pg => !(pg.page_id = -1 ∨ pg.pin_count = 0 : Bool))) = true
  · rw [if_pos hap]
  · rw [if_neg hap] at h ⊢
    cases hfl : st.free_list with
    | cons f rest =>
      try rw [hfl] at h
      all_goals exact absurd h (newPgCont_ne_none D { st with free_list := rest } f)
    | nil =>
      try rw [hfl] at h
      try rw [hfl]
      cases hlv : lruVictim st.lru with
      | none =>
        try rw [hlv]
        all_goals rfl
      | some pr =>
        obtain ⟨vf, vl⟩ := pr
        try rw [hlv] at h
        all_goals exact absurd h (newPgCont_ne_none D { st with free_list := [], lru := vl } vf)

/-- Helper: `fetchPgCont` always succeeds. -/
theorem fetchPgCont_ne_none (D : Type) [Inhabited D] (st : BPI D) (p : Int) (f : Nat) :
    (fetchPgCont st p f).1 ≠ none := by
  intro h
  exact Option.noConfusion h

/-- Helper: a failing FetchPage leaves the instance untouched. -/
theorem fetchPgImp_fail_frozen (D : Type) [Inhabited D] (st : BPI D) (p : Int)
    (h : (fetchPgImp st p).1 = none) : (fetchPgImp st p).2 = st := by
  unfold fetchPgImp at h ⊢
  cases hpt : ptLookup st.page_table p with
  | some f =>
    try rw [hpt] at h
    all_goals exact absurd h (by simp)
  | none =>
    try rw [hpt] at h
    try rw [hpt]
    cases hfl : st.free_list with
    | cons f rest =>
      try rw [hfl] at h
      all_goals exact absurd h (fetchPgCont_ne_none D { st with free_list := rest } p f)
    | nil =>
      try rw [hfl] at h
      try rw [hfl]
      cases hlv : lruVictim st.lru with
      | none =>
        try rw [hlv]
        all_goals rfl
      | some pr =>
        obtain ⟨vf, vl⟩ := pr
        try rw [hlv] at h
        all_goals exact absurd h (fetchPgCont_ne_none D { st with free_list := [], lru := vl } p vf)

/-- C10: failure of NewPage or FetchPage is atomic — whenever either returns
"no page" the page table, free list, replacer queue, frame metadata and
bytes, next-page-id allocator and disk are all exactly as before the call
(the whole state is unchanged, so in particular a failing NewPage consumes
no page identifier). -/
theorem c10_failure_atomic (D : Type) [Inhabited D] (st : BPI D) (p : Int) :
    ((newPgImp st).1 = none → (newPgImp st).2 = st) ∧
    ((fetchPgImp st p).1 = none → (fetchPgImp st p).2 = st) :=
  ⟨newPgImp_fail_frozen D st, fetchPgImp_fail_frozen D st p⟩

/-- State in which both NewPage and FetchPage fail: a single frame pinned
with a valid page and an empty free list and replacer. -/
def c10cex : BPI Nat :=
  { pool_size := 1, num_instances := 1, instance_index := 0, next_page_id := 1
    pages := [{ page_id := 0, pin_count := 1, is_dirty := false, data := 0 }]
    page_table := [(0, 0)], free_list := [], lru := [], lru_limit := 1, disk := [] }

/-- C10 witness: on the all-pinned single-frame state both operations fail
and the state is exactly preserved. -/
theorem c10_failure_atomic_witness :
    (newPgImp c10cex).2 = c10cex ∧ (fetchPgImp c10cex 5).2 = c10cex := by
  have h := c10_failure_atomic Nat c10cex 5
  exact ⟨h.1 (by decide), h.2 (by decide)⟩

/-! ### ParallelBufferPoolManager -/

/-- State of a ParallelBufferPoolManager: the vector of instances and the
round-robin cursor `last_index`. -/
structure PBPM (D : Type) where
  bpms : List (BPI D)
  last_index : Nat

/-- `ParallelBufferPoolManager::ParallelBufferPoolManager`: N instances of
the given pool size, cursor at 0. -/
def mkPBPM (D : Type) [Inhabited D] (num_instances pool_size : Nat) : PBPM D :=
  { bpms := (List.range num_instances).map (fun i => mkBPI D pool_size num_instances i)
    last_index := 0 }

/-- Indexing into the instance vector (`bpms_[i]`). -/
def nthBPI [Inhabited D] (l : List (BPI D)) (i : Nat) : BPI D :=
  l.getD i (mkBPI D 0 1 0)

/-- `ParallelBufferPoolManager::GetBufferPoolManager`: the owning instance of
a page id is `page_id % bpms_.size()` (page ids are non-negative). -/
def getBPMIdx (P : PBPM D) (p : Int) : Nat :=
  (p % (P.bpms.length : Int)).toNat

/-- `ParallelBufferPoolManager::FetchPgImp`: delegate to the owning instance. -/
def parallelFetchPg [Inhabited D] (P : PBPM D) (p : Int) : Option Nat × PBPM D :=
  let i := getBPMIdx P p
  let r := fetchPgImp (nthBPI P.bpms i) p
  (r.1, { P with bpms := P.bpms.set i r.2 })

/-- `ParallelBufferPoolManager::UnpinPgImp`: delegate to the owning instance. -/
def parallelUnpinPg [Inhabited D] (P : PBPM D) (p : Int) (d : Bool) : Bool × PBPM D :=
  let i := getBPMIdx P p
  let r := unpinPgImp (nthBPI P.bpms i) p d
  (r.1, { P with bpms := P.bpms.set i r.2 })

/-- `ParallelBufferPoolManager::FlushPgImp`: delegate to the owning instance. -/
def parallelFlushPg [Inhabited D] (P : PBPM D) (p : Int) : Bool × PBPM D :=
  let i := getBPMIdx P p
  let r := flushPgImp (nthBPI P.bpms i) p
  (r.1, { P with bpms := P.bpms.set i r.2 })

/-- `ParallelBufferPoolManager::DeletePgImp`: delegate to the owning instance. -/
def parallelDeletePg [Inhabited D] (P : PBPM D) (p : Int) : Bool × PBPM D :=
  let i := getBPMIdx P p
  let r := deletePgImp (nthBPI P.bpms i) p
  (r.1, { P with bpms := P.bpms.set i r.2 })

/-- The probing loop of `ParallelBufferPoolManager::NewPgImp`: try
`bpms_[start % N]`; on success stop, on failure advance `start` modulo N and
continue; after `tries` consecutive failures give up.  The caller passes
`tries = N`, matching the source's `start_index == last_index` exit test. -/
def newProbe [Inhabited D] (bpms : List (BPI D)) (tries start : Nat) :
    Option (Int × Nat) × List (BPI D) :=
  match tries with
  | 0 => (none, bpms)
  | t + 1 =>
      let n := bpms.length
      let r := newPgImp (nthBPI bpms (start % n))
      match r.1 with
      | some pr => (some pr, bpms.set (start % n) r.2)
      | none => newProbe (bpms.set (start % n) r.2) t ((start + 1) % n)

/-- `ParallelBufferPoolManager::NewPgImp`: probe the instances round-robin
starting at `last_index`; in both outcomes advance `last_index` by one
modulo N. -/
def parallelNewPg [Inhabited D] (P : PBPM D) : Option (Int × Nat) × PBPM D :=
  let n := P.bpms.length
  let r := newProbe P.bpms n P.last_index
  (r.1, { bpms := r.2, last_index := (P.last_index + 1) % n })

/-- `ParallelBufferPoolManager::FlushAllPgsImp`: flush every instance. -/
def parallelFlushAllPgs [Inhabited D] (P : PBPM D) : PBPM D :=
  { P with bpms := P.bpms.map flushAllPgsImp }

/-- Writing an instance slot back with its own value is the identity. -/
theorem set_nthBPI_self (D : Type) [Inhabited D] (l : List (BPI D)) (i : Nat)
    (h : i < l.length) : l.set i (nthBPI l i) = l := by
  apply List.ext_getElem?
  intro n
  by_cases hn : i = n
  · subst hn
    rw [List.getElem?_set_self']
    unfold nthBPI
    rw [List.getD_eq_getElem?_getD, List.getElem?_eq_getElem h]
    rfl
  · rw [List.getElem?_set_ne hn]

/-- Reading an untouched instance slot. -/
theorem nthBPI_set_ne (D : Type) [Inhabited D] (l : List (BPI D)) (i j : Nat) (x : BPI D)
    (h : i ≠ j) : nthBPI (l.set i x) j = nthBPI l j := by
  unfold nthBPI
  rw [List.getD_eq_getElem?_getD, List.getD_eq_getElem?_getD, List.getElem?_set_ne h]

/-- Reading the updated instance slot. -/
theorem nthBPI_set_eq (D : Type) [Inhabited D] (l : List (BPI D)) (i : Nat) (x : BPI D)
    (h : i < l.length) : nthBPI (l.set i x) i = x := by
  unfold nthBPI
  rw [List.getD_eq_getElem?_getD, List.getElem?_set_eq_of_lt x h]
  rfl

/-- The probe loop: (a) it fails exactly when the instances at
`start, start+1, …, start+tries-1` (mod N) all fail, and (b) if the first
`k` probes fail and probe `k` succeeds with `pr`, the loop returns `pr`.
Failed probes leave their instance unchanged, so the probes are independent
of each other. -/
theorem newProbe_spec (D : Type) [Inhabited D] :
    ∀ (tries : Nat) (bpms : List (BPI D)) (start : Nat), 0 < bpms.length →
    (((newProbe bpms tries start).1 = none ↔
       ∀ k < tries, (newPgImp (nthBPI bpms ((start + k) % bpms.length))).1 = none) ∧
     (∀ k < tries,
       (∀ j < k, (newPgImp (nthBPI bpms ((start + j) % bpms.length))).1 = none) →
       ∀ pr, (newPgImp (nthBPI bpms ((start + k) % bpms.length))).1 = some pr →
       (newProbe bpms tries start).1 = some pr)) := by
  intro tries
  induction tries with
  | zero =>
    intro bpms start hlen
    constructor
    · simp [newProbe]
    · intro k hk
      omega
  | succ t ih =>
    intro bpms start hlen
    have hidx : start % bpms.length < bpms.length := Nat.mod_lt _ hlen
    cases hr : (newPgImp (nthBPI bpms (start % bpms.length))).1 with
    | some pr0 =>
      have hrun : (newProbe bpms (t + 1) start).1 = some pr0 := by
        simp only [newProbe, hr]
      constructor
      · rw [hrun]
        constructor
        · intro hc; exact absurd hc (by simp)
        · intro hall
          have h0 := hall 0 (Nat.succ_pos t)
          rw [Nat.add_zero] at h0
          rw [h0] at hr
          exact absurd hr (by simp)
      · intro k hk hprev pr hpr
        cases k with
        | zero =>
          rw [Nat.add_zero] at hpr
          rw [hpr] at hr
          rw [hrun]
          exact congrArg some (Option.some.inj hr).symm ▸ (hr ▸ rfl)
        | succ k' =>
          have h0 := hprev 0 (Nat.succ_pos k')
          rw [Nat.add_zero] at h0
          rw [h0] at hr
          exact absurd hr (by simp)
    | none =>
      have hfroz : (newPgImp (nthBPI bpms (start % bpms.length))).2
          = nthBPI bpms (start % bpms.length) :=
        newPgImp_fail_frozen D _ hr
      have hset : bpms.set (start % bpms.length)
          (newPgImp (nthBPI bpms (start % bpms.length))).2 = bpms := by
        rw [hfroz]
        exact set_nthBPI_self D bpms _ hidx
      have hrun : newProbe bpms (t + 1) start
          = newProbe bpms t ((start + 1) % bpms.length) := by
        simp only [newProbe, hr, hset]
      have hmod : ∀ k : Nat, ((start + 1) % bpms.length + k) % bpms.length
          = (start + (k + 1)) % bpms.length := by
        intro k
        rw [Nat.mod_add_mod]
        congr 1
        omega
      obtain ⟨ih1, ih2⟩ := ih bpms ((start + 1) % bpms.length) hlen
      constructor
      · rw [hrun, ih1]
        constructor
        · intro hall k hk
          cases k with
          | zero => rw [Nat.add_zero]; exact hr
          | succ k' =>
            have := hall k' (by omega)
            rw [hmod k'] at this
            exact this
        · intro hall k hk
          rw [hmod k]
          exact hall (k + 1) (by omega)
      · intro k hk hprev pr hpr
        cases k with
        | zero =>
          rw [Nat.add_zero] at hpr
          rw [hpr] at hr
          exact absurd hr (by simp)
        | succ k' =>
          rw [hrun]
          refine ih2 k' (by omega) ?_ pr ?_
          · intro j hj
            have := hprev (j + 1) (by omega)
            rw [hmod j]
            exact this
          · rw [hmod k']
            exact hpr

/-- The routing index is a valid instance index. -/
theorem getBPMIdx_lt (D : Type) (P : PBPM D) (p : Int) (hN : 0 < P.bpms.length) :
    getBPMIdx P p < P.bpms.length := by
  unfold getBPMIdx
  have hne : (P.bpms.length : Int) ≠ 0 := by exact_mod_cast Nat.pos_iff_ne_zero.mp hN
  have h1 : 0 ≤ p % (P.bpms.length : Int) := Int.emod_nonneg p hne
  have h2 : p % (P.bpms.length : Int) < (P.bpms.length : Int) :=
    Int.emod_lt_of_pos p (by exact_mod_cast hN)
  omega

/-- C9: every page-id-bearing operation of the parallel pool delegates to
instance `page_id mod N`, changing only that instance's state and leaving
`last_index` alone; `NewPage` probes instances starting at `last_index`,
advancing modulo N, returns the first success, fails exactly when all N
consecutive probes fail, and in both cases advances `last_index` by exactly
one modulo N. -/
theorem c9_parallel_routing (D : Type) [Inhabited D] (P : PBPM D) (p : Int) (d : Bool)
    (hN : 0 < P.bpms.length) (hp : 0 ≤ p) :
    ((parallelFetchPg P p).1 = (fetchPgImp (nthBPI P.bpms (getBPMIdx P p)) p).1 ∧
     (parallelFetchPg P p).2.last_index = P.last_index ∧
     nthBPI (parallelFetchPg P p).2.bpms (getBPMIdx P p)
       = (fetchPgImp (nthBPI P.bpms (getBPMIdx P p)) p).2 ∧
     (∀ j, j ≠ getBPMIdx P p → nthBPI (parallelFetchPg P p).2.bpms j = nthBPI P.bpms j)) ∧
    ((parallelUnpinPg P p d).1 = (unpinPgImp (nthBPI P.bpms (getBPMIdx P p)) p d).1 ∧
     (parallelUnpinPg P p d).2.last_index = P.last_index ∧
     nthBPI (parallelUnpinPg P p d).2.bpms (getBPMIdx P p)
       = (unpinPgImp (nthBPI P.bpms (getBPMIdx P p)) p d).2 ∧
     (∀ j, j ≠ getBPMIdx P p → nthBPI (parallelUnpinPg P p d).2.bpms j = nthBPI P.bpms j)) ∧
    ((parallelFlushPg P p).1 = (flushPgImp (nthBPI P.bpms (getBPMIdx P p)) p).1 ∧
     (parallelFlushPg P p).2.last_index = P.last_index ∧
     nthBPI (parallelFlushPg P p).2.bpms (getBPMIdx P p)
       = (flushPgImp (nthBPI P.bpms (getBPMIdx P p)) p).2 ∧
     (∀ j, j ≠ getBPMIdx P p → nthBPI (parallelFlushPg P p).2.bpms j = nthBPI P.bpms j)) ∧
    ((parallelDeletePg P p).1 = (deletePgImp (nthBPI P.bpms (getBPMIdx P p)) p).1 ∧
     (parallelDeletePg P p).2.last_index = P.last_index ∧
     nthBPI (parallelDeletePg P p).2.bpms (getBPMIdx P p)
       = (deletePgImp (nthBPI P.bpms (getBPMIdx P p)) p).2 ∧
     (∀ j, j ≠ getBPMIdx P p → nthBPI (parallelDeletePg P p).2.bpms j = nthBPI P.bpms j)) ∧
    ((parallelNewPg P).2.last_index = (P.last_index + 1) % P.bpms.length ∧
     ((parallelNewPg P).1 = none ↔
       ∀ k < P.bpms.length,
         (newPgImp (nthBPI P.bpms ((P.last_index + k) % P.bpms.length))).1 = none) ∧
     (∀ k < P.bpms.length,
       (∀ j < k, (newPgImp (nthBPI P.bpms ((P.last_index + j) % P.bpms.length))).1 = none) →
       ∀ pr, (newPgImp (nthBPI P.bpms ((P.last_index + k) % P.bpms.length))).1 = some pr →
       (parallelNewPg P).1 = some pr)) := by
  have hlt := getBPMIdx_lt D P p hN
  obtain ⟨hiff, hsucc⟩ := newProbe_spec D P.bpms.length P.bpms P.last_index hN
  refine ⟨⟨rfl, rfl, ?_, ?_⟩, ⟨rfl, rfl, ?_, ?_⟩, ⟨rfl, rfl, ?_, ?_⟩, ⟨rfl, rfl, ?_, ?_⟩,
         rfl, ?_, ?_⟩
  · exact nthBPI_set_eq D P.bpms _ _ hlt
  · intro j hj; exact nthBPI_set_ne D P.bpms _ j _ (Ne.symm hj)
  · exact nthBPI_set_eq D P.bpms _ _ hlt
  · intro j hj; exact nthBPI_set_ne D P.bpms _ j _ (Ne.symm hj)
  · exact nthBPI_set_eq D P.bpms _ _ hlt
  · intro j hj; exact nthBPI_set_ne D P.bpms _ j _ (Ne.symm hj)
  · exact nthBPI_set_eq D P.bpms _ _ hlt
  · intro j hj; exact nthBPI_set_ne D P.bpms _ j _ (Ne.symm hj)
  · exact hiff
  · exact hsucc

/-- Concrete two-instance parallel pool (one frame per instance). -/
def pbpm0 : PBPM Nat := mkPBPM Nat 2 1

/-- C9 witness: applying the routing theorem to a concrete two-instance pool
and page id 5 (owned by instance 1). -/
theorem c9_parallel_routing_witness :
    (parallelFetchPg pbpm0 5).1 = (fetchPgImp (nthBPI pbpm0.bpms (getBPMIdx pbpm0 5)) 5).1 ∧
    (parallelUnpinPg pbpm0 5 true).1
      = (unpinPgImp (nthBPI pbpm0.bpms (getBPMIdx pbpm0 5)) 5 true).1 ∧
    (parallelNewPg pbpm0).2.last_index = (pbpm0.last_index + 1) % pbpm0.bpms.length := by
  have h := c9_parallel_routing Nat pbpm0 5 true (by decide) (by decide)
  exact ⟨h.1.1, h.2.1.1, h.2.2.2.2.1⟩

/-! ### Extendible hash table

The hash table code (`extendible_hash_table.cpp`) is in the repository, but
the page classes it manipulates (`HashTableDirectoryPage`,
`HASH_TABLE_BUCKET_TYPE`) are not under src/; those two types and their
accessors are modelled from the spec (sections 3, 4.D and 6).  Keys and
values are specialised to `Nat` (the `<int, int, IntComparator>`
instantiation); the user hash function is a parameter. -/

/-- Modelled from the spec: the directory page (§6): `global_depth`, and the
`local_depths` / `bucket_page_ids` arrays (total maps here; slot accessors
enforce the `2^MAX_DEPTH` bound). -/
structure DirPage where
  pageId : Int
  globalDepth : Nat
  localDepths : Nat → Nat
  bucketPids : Nat → Int

/-- A freshly zeroed directory page. -/
def zeroDir : DirPage := ⟨0, 0, fun _ => 0, fun _ => 0⟩

/-- Payload of a cached page as the hash table interprets it: a zeroed page
(as produced by NewPage / reading an unwritten block), a directory page, or
a bucket page (fixed-capacity array of key/value slots). -/
inductive PageData where
  | zero : PageData
  | dir : DirPage → PageData
  | bucket : List (Option (Nat × Nat)) → PageData

instance pageDataInhabited : Inhabited PageData := ⟨PageData.zero⟩

/-- Outcome of a hash-table computation: a value, a crash (null-pointer
dereference, out-of-bounds directory access, reinterpreting a page as the
wrong kind), or fuel exhaustion of the Insert/SplitInsert recursion. -/
inductive Res (α : Type) where
  | ok : α → Res α
  | crash : Res α
  | fuelOut : Res α

def Res.bind {α β : Type} : Res α → (α → Res β) → Res β
  | .ok a, g => g a
  | .crash, _ => .crash
  | .fuelOut, _ => .fuelOut

instance resMonad : Monad Res where
  pure := Res.ok
  bind := Res.bind

/-- `reinterpret_cast<HashTableDirectoryPage *>`: a zeroed page reads as a
zeroed directory; bytes of a bucket page are not a directory. -/
def asDir : PageData → Res DirPage
  | .zero => .ok zeroDir
  | .dir d => .ok d
  | .bucket _ => .crash

/-- `reinterpret_cast<HASH_TABLE_BUCKET_TYPE *>`: a zeroed page reads as an
empty bucket of the given capacity. -/
def asBucket (cap : Nat) : PageData → Res (List (Option (Nat × Nat)))
  | .zero => .ok (List.replicate cap none)
  | .bucket b => .ok b
  | .dir _ => .crash

/-- Modelled from the spec: `IncrGlobalDepth` (spec: `global_depth ∈ [0,
MAX_DEPTH]`; incrementing past the bound corrupts the fixed-size arrays). -/
def dirIncrGlobalDepth (maxDepth : Nat) (d : DirPage) : Res DirPage :=
  if d.globalDepth < maxDepth then .ok { d with globalDepth := d.globalDepth + 1 }
  else .crash

/-- Modelled from the spec: `GetBucketPageId(i)` with the `2^MAX_DEPTH`
array bound. -/
def dirGetBucketPid (maxDepth : Nat) (d : DirPage) (i : Nat) : Res Int :=
  if i < 2 ^ maxDepth then .ok (d.bucketPids i) else .crash

/-- Modelled from the spec: `SetBucketPageId(i, pid)`. -/
def dirSetBucketPid (maxDepth : Nat) (d : DirPage) (i : Nat) (pid : Int) : Res DirPage :=
  if i < 2 ^ maxDepth then
    .ok { d with bucketPids := fun j => if j = i then pid else d.bucketPids j }
  else .crash

/-- Modelled from the spec: `GetLocalDepth(i)`. -/
def dirGetLocalDepth (maxDepth : Nat) (d : DirPage) (i : Nat) : Res Nat :=
  if i < 2 ^ maxDepth then .ok (d.localDepths i) else .crash

/-- Modelled from the spec: `SetLocalDepth(i, ld)`. -/
def dirSetLocalDepth (maxDepth : Nat) (d : DirPage) (i : Nat) (ld : Nat) : Res DirPage :=
  if i < 2 ^ maxDepth then
    .ok { d with localDepths := fun j => if j = i then ld else d.localDepths j }
  else .crash

/-- Modelled from the spec: bucket `IsFull` — every slot occupied. -/
def bIsFull (b : List (Option (Nat × Nat))) : Bool := b.all Option.isSome

/-- Modelled from the spec: bucket `IsEmpty` — no slot readable. -/
def bIsEmpty (b : List (Option (Nat × Nat))) : Bool := b.all Option.isNone

/-- Modelled from the spec: bucket `GetValue` — collect the values of every
readable slot whose key compares equal. -/
def bGetValue (b : List (Option (Nat × Nat))) (k : Nat) : List Nat :=
  b.filterMap (fun s => match s with
    | some kv => if kv.1 = k then some kv.2 else none
    | none => none)

/-- Place a pair into the first free slot, if any. -/
def bPlace (kv : Nat × Nat) : List (Option (Nat × Nat)) → Option (List (Option (Nat × Nat)))
  | [] => none
  | none :: rest => some (some kv :: rest)
  | some x :: rest => (bPlace kv rest).map (fun r => some x :: r)

/-- Modelled from the spec: bucket `Insert` — reject an exact duplicate
`(key, value)` pair, otherwise store into the first free slot; fails when
no slot is free. -/
def bInsert (b : List (Option (Nat × Nat))) (k v : Nat) : Bool × List (Option (Nat × Nat)) :=
  if b.contains (some (k, v)) then (false, b)
  else match bPlace (k, v) b with
       | some b' => (true, b')
       | none => (false, b)

/-- Modelled from the spec: bucket `Remove` — clear the first slot holding
exactly `(key, value)`. -/
def bRemove (b : List (Option (Nat × Nat))) (k v : Nat) : Bool × List (Option (Nat × Nat)) :=
  match b with
  | [] => (false, [])
  | s :: rest =>
      if s = some (k, v) then (true, none :: rest)
      else
        let r := bRemove rest k v
        (r.1, s :: r.2)

/-- Modelled from the spec: bucket `IsReadable(i)`. -/
def bIsReadable (b : List (Option (Nat × Nat))) (i : Nat) : Bool := (b.getD i none).isSome

/-- Modelled from the spec: bucket `KeyAt(i)`. -/
def bKeyAt (b : List (Option (Nat × Nat))) (i : Nat) : Nat := ((b.getD i none).getD (0, 0)).1

/-- Modelled from the spec: bucket `ValueAt(i)`. -/
def bValueAt (b : List (Option (Nat × Nat))) (i : Nat) : Nat := ((b.getD i none).getD (0, 0)).2

/-- Modelled from the spec: bucket `RemoveAt(i)` — clear the slot (§4.D.4
"clear it from the old [bucket]"). -/
def bRemoveAt (b : List (Option (Nat × Nat))) (i : Nat) : List (Option (Nat × Nat)) :=
  b.set i none

/-- Compile-time parameters of one template instantiation: the key hash
function, `BUCKET_ARRAY_SIZE` and `MAX_DEPTH`. -/
structure HTParams where
  hashFn : Nat → Nat
  cap : Nat
  maxDepth : Nat

/-- State of an ExtendibleHashTable: the recorded directory page id and the
backing buffer pool instance. -/
structure HTS where
  dirPid : Int
  bp : BPI PageData

/-- Current payload of a frame (what a C++ `Page*` obtained earlier reads
right now). -/
def frameData (bp : BPI PageData) (f : Nat) : PageData :=
  (bp.pages.getD f default).data

/-- Fold a fallible step over a list. -/
def resFoldl {α β : Type} (g : β → α → Res β) : List α → β → Res β
  | [], b => .ok b
  | a :: as, b => (g b a).bind (fun b' => resFoldl g as b')

/-- Read the directory page through a C++ pointer to frame `fd`, transform
it, and write it back through the same pointer. -/
def dirModify (bp : BPI PageData) (fd : Nat) (g : DirPage → Res DirPage) :
    Res (BPI PageData) := do
  let d ← asDir (frameData bp fd)
  let d' ← g d
  pure (userWrite bp fd (PageData.dir d'))

/-- `ExtendibleHashTable` constructor: allocate the directory page,
`IncrGlobalDepth` (0 → 1), `SetPageId`, allocate two bucket pages wired to
slots 0 and 1 with local depth 1, unpin all three (directory dirty).  A
failed NewPage crashes: the source dereferences the returned pointer (for
the directory) or reads an uninitialized page id (for the buckets). -/
def htNew (ps : HTParams) (bp0 : BPI PageData) : Res HTS := do
  match newPgImp bp0 with
  | (none, _) => Res.crash
  | (some (dirPid, fd), bp1) => do
    let bp2 ← dirModify bp1 fd (fun d => dirIncrGlobalDepth ps.maxDepth d)
    let bp3 ← dirModify bp2 fd (fun d => Res.ok { d with pageId := dirPid })
    match newPgImp bp3 with
    | (none, _) => Res.crash
    | (some (pid0, _), bp4) => do
      let bp5 ← dirModify bp4 fd (fun d => dirSetBucketPid ps.maxDepth d 0 pid0)
      let bp6 ← dirModify bp5 fd (fun d => dirSetLocalDepth ps.maxDepth d 0 1)
      match newPgImp bp6 with
      | (none, _) => Res.crash
      | (some (pid1, _), bp7) => do
        let bp8 ← dirModify bp7 fd (fun d => dirSetBucketPid ps.maxDepth d 1 pid1)
        let bp9 ← dirModify bp8 fd (fun d => dirSetLocalDepth ps.maxDepth d 1 1)
        let bp10 := (unpinPgImp bp9 pid0 false).2
        let bp11 := (unpinPgImp bp10 pid1 false).2
        let bp12 := (unpinPgImp bp11 dirPid true).2
        pure { dirPid := dirPid, bp := bp12 }

/-- `ExtendibleHashTable::GetValue`: fetch the directory, locate the bucket
by `hash(key) & GetGlobalDepthMask()`, scan it, unpin both pages clean.
Returns the C++ boolean together with the accumulated result vector. -/
def htGetValue (ps : HTParams) (hts : HTS) (k : Nat) : Res (Bool × List Nat × HTS) := do
  match fetchPgImp hts.bp hts.dirPid with
  | (none, _) => Res.crash
  | (some fd, bp1) => do
    let d ← asDir (frameData bp1 fd)
    let idx := (ps.hashFn k) &&& ((1 <<< d.globalDepth) - 1)
    let pid ← dirGetBucketPid ps.maxDepth d idx
    match fetchPgImp bp1 pid with
    | (none, _) => Res.crash
    | (some fb, bp2) => do
      let b ← asBucket ps.cap (frameData bp2 fb)
      let res := bGetValue b k
      let bp3 := (unpinPgImp bp2 hts.dirPid false).2
      let bp4 := (unpinPgImp bp3 pid false).2
      pure (!res.isEmpty, res, { hts with bp := bp4 })

/-- The Insert/SplitInsert recursion is mutual and only through tail calls;
`InsMode` selects which of the two bodies to run next. -/
inductive InsMode where
  | ins : InsMode
  | split : InsMode

/-- One body of `ExtendibleHashTable::Insert` (lines 104-120): on a full
bucket unpin both pages clean and tail-call SplitInsert; otherwise do the
bucket-level insert, write it through the page pointer and unpin (bucket
dirty iff the insert succeeded). -/
def insStepBody (ps : HTParams) (hts : HTS) (k v : Nat) :
    Res ((Bool × HTS) ⊕ (InsMode × HTS)) := do
  match fetchPgImp hts.bp hts.dirPid with
  | (none, _) => Res.crash
  | (some fd, bp1) => do
    let d ← asDir (frameData bp1 fd)
    let idx := (ps.hashFn k) &&& ((1 <<< d.globalDepth) - 1)
    let pid ← dirGetBucketPid ps.maxDepth d idx
    match fetchPgImp bp1 pid with
    | (none, _) => Res.crash
    | (some fb, bp2) => do
      let b ← asBucket ps.cap (frameData bp2 fb)
      if bIsFull b then
        let bp3 := (unpinPgImp bp2 hts.dirPid false).2
        let bp4 := (unpinPgImp bp3 pid false).2
        pure (Sum.inr (InsMode.split, { hts with bp := bp4 }))
      else
        let r := bInsert b k v
        let bp3 := userWrite bp2 fb (PageData.bucket r.2)
        let bp4 := (unpinPgImp bp3 hts.dirPid false).2
        let bp5 := (unpinPgImp bp4 pid r.1).2
        pure (Sum.inl (r.1, { hts with bp := bp5 }))

/-- One iteration of SplitInsert's rehash loop (lines 142-152): if slot `i`
of the old bucket is readable and its key's low `new_ld` bits equal
`split_id`, bucket-insert the pair into the split page and `RemoveAt` it
from the old page, through the two page pointers. -/
def rehashStep (ps : HTParams) (fb fnew new_ld split_id : Nat) (bp : BPI PageData)
    (i : Nat) : Res (BPI PageData) := do
  let b ← asBucket ps.cap (frameData bp fb)
  if bIsReadable b i then
    let ki := bKeyAt b i
    let vi := bValueAt b i
    let insert_id := (ps.hashFn ki) &&& ((1 <<< new_ld) - 1)
    if insert_id = split_id then do
      let nb ← asBucket ps.cap (frameData bp fnew)
      let bp1 := userWrite bp fnew (PageData.bucket (bInsert nb ki vi).2)
      let ob ← asBucket ps.cap (frameData bp1 fb)
      pure (userWrite bp1 fb (PageData.bucket (bRemoveAt ob i)))
    else pure bp
  else pure bp

/-- One iteration of the post-doubling slot-copy loop (lines 154-163): slot
`i` of the new upper half (except the split image) is pointed at the page
and local depth of its image under truncation of the top bit. -/
def copyStep (ps : HTParams) (fd split_id gd : Nat) (bp : BPI PageData) (i : Nat) :
    Res (BPI PageData) := do
  if i = split_id then pure bp
  else do
    let d ← asDir (frameData bp fd)
    let rdx := i &&& ((1 <<< (gd - 1)) - 1)
    let pidr ← dirGetBucketPid ps.maxDepth d rdx
    let ldr ← dirGetLocalDepth ps.maxDepth d rdx
    let d1 ← dirSetBucketPid ps.maxDepth d i pidr
    let d2 ← dirSetLocalDepth ps.maxDepth d1 i ldr
    pure (userWrite bp fd (PageData.dir d2))

/-- One body of `ExtendibleHashTable::SplitInsert` (lines 123-170): possibly
double the directory, compute the split image `1 << ld | bucket_id`,
increment the local depth of slot `bucket_id` only, allocate the split
bucket page, wire the split image slot, rehash the old bucket, copy the
new upper directory half if the directory doubled, unpin — passing the
DIRECTORY INDICES `bucket_id` and `split_bucket_id` as page ids, exactly
as the source does — and tail-call Insert with the original key/value. -/
def splitStepBody (ps : HTParams) (hts : HTS) (k v : Nat) :
    Res ((Bool × HTS) ⊕ (InsMode × HTS)) := do
  match fetchPgImp hts.bp hts.dirPid with
  | (none, _) => Res.crash
  | (some fd, bp1) => do
    let d0 ← asDir (frameData bp1 fd)
    let bucket_id := (ps.hashFn k) &&& ((1 <<< d0.globalDepth) - 1)
    let pid ← dirGetBucketPid ps.maxDepth d0 bucket_id
    match fetchPgImp bp1 pid with
    | (none, _) => Res.crash
    | (some fb, bp2) => do
      let d1 ← asDir (frameData bp2 fd)
      let ld0 ← dirGetLocalDepth ps.maxDepth d1 bucket_id
      let incr := ld0 == d1.globalDepth
      let bp3 ←
        if incr then do
          let d2 ← dirIncrGlobalDepth ps.maxDepth d1
          pure (userWrite bp2 fd (PageData.dir d2))
        else pure bp2
      let d3 ← asDir (frameData bp3 fd)
      let ld1 ← dirGetLocalDepth ps.maxDepth d3 bucket_id
      let split_bucket_id := (1 <<< ld1) ||| bucket_id
      let d4 ← dirSetLocalDepth ps.maxDepth d3 bucket_id (ld1 + 1)
      let bp4 := userWrite bp3 fd (PageData.dir d4)
      let d5 ← asDir (frameData bp4 fd)
      let new_ld ← dirGetLocalDepth ps.maxDepth d5 bucket_id
      match newPgImp bp4 with
      | (none, _) => Res.crash
      | (some (split_pid, fnew), bp5) => do
        let d6 ← asDir (frameData bp5 fd)
        let d7 ← dirSetBucketPid ps.maxDepth d6 split_bucket_id split_pid
        let d8 ← dirSetLocalDepth ps.maxDepth d7 split_bucket_id new_ld
        let bp6 := userWrite bp5 fd (PageData.dir d8)
        let bp7 ← resFoldl (rehashStep ps fb fnew new_ld split_bucket_id)
                    (List.range ps.cap) bp6
        let bp8 ←
          if incr then do
            let d9 ← asDir (frameData bp7 fd)
            let gd := d9.globalDepth
            resFoldl (copyStep ps fd split_bucket_id gd)
              (List.range' (2 ^ (gd - 1)) (2 ^ gd - 2 ^ (gd - 1))) bp7
          else pure bp7
        let bp9 := (unpinPgImp bp8 hts.dirPid incr).2
        let bp10 := (unpinPgImp bp9 (Int.ofNat bucket_id) true).2
        let bp11 := (unpinPgImp bp10 (Int.ofNat split_bucket_id) true).2
        pure (Sum.inr (InsMode.ins, { hts with bp := bp11 }))

/-- Dispatch one body of the Insert/SplitInsert recursion. -/
def ihStep (ps : HTParams) : InsMode → HTS → Nat → Nat →
    Res ((Bool × HTS) ⊕ (InsMode × HTS))
  | .ins, hts, k, v => insStepBody ps hts k v
  | .split, hts, k, v => splitStepBody ps hts k v

/-- The Insert/SplitInsert recursion with explicit fuel: each tail call
consumes one unit. -/
def ihOp (ps : HTParams) : Nat → InsMode → HTS → Nat → Nat → Res (Bool × HTS)
  | 0, _, _, _, _ => .fuelOut
  | n + 1, mode, hts, k, v =>
      match ihStep ps mode hts k v with
      | .ok (.inl r) => .ok r
      | .ok (.inr (m', hts')) => ihOp ps n m' hts' k v
      | .crash => .crash
      | .fuelOut => .fuelOut

/-- `ExtendibleHashTable::Insert`. -/
def htInsert (ps : HTParams) (fuel : Nat) (hts : HTS) (k v : Nat) : Res (Bool × HTS) :=
  ihOp ps fuel InsMode.ins hts k v

/-- `ExtendibleHashTable::Remove` (lines 176-188): bucket-level remove,
write-through, unpin directory clean and bucket dirty iff removed; the
emptiness check feeds `Merge`, which is a no-op. -/
def htRemove (ps : HTParams) (hts : HTS) (k v : Nat) : Res (Bool × HTS) := do
  match fetchPgImp hts.bp hts.dirPid with
  | (none, _) => Res.crash
  | (some fd, bp1) => do
    let d ← asDir (frameData bp1 fd)
    let idx := (ps.hashFn k) &&& ((1 <<< d.globalDepth) - 1)
    let pid ← dirGetBucketPid ps.maxDepth d idx
    match fetchPgImp bp1 pid with
    | (none, _) => Res.crash
    | (some fb, bp2) => do
      let b ← asBucket ps.cap (frameData bp2 fb)
      let r := bRemove b k v
      let bp3 := userWrite bp2 fb (PageData.bucket r.2)
      let bp4 := (unpinPgImp bp3 hts.dirPid false).2
      let bp5 := (unpinPgImp bp4 pid r.1).2
      let b2 ← asBucket ps.cap (frameData bp5 fb)
      let _ := bIsEmpty b2
      pure (r.1, { hts with bp := bp5 })

/-! ### Concrete hash-table traces -/

/-- Run a list of Insert operations, collecting the returned booleans. -/
def runInserts (ps : HTParams) (fuel : Nat) :
    List (Nat × Nat) → HTS → Res (List Bool × HTS)
  | [], hts => .ok ([], hts)
  | (k, v) :: rest, hts =>
      (htInsert ps fuel hts k v).bind fun r =>
      (runInserts ps fuel rest r.2).bind fun rr => .ok (r.1 :: rr.1, rr.2)

/-- Observation: the current directory page of a table (via the page table). -/
def readDirState (hts : HTS) : Res DirPage :=
  match ptLookup hts.bp.page_table hts.dirPid with
  | some f => asDir (frameData hts.bp f)
  | none => .crash

/-- Parameters of the `<int, int>` instantiation used in the traces:
identity hash, `BUCKET_ARRAY_SIZE = 2`, `MAX_DEPTH = 9`. -/
def ps4 : HTParams := ⟨fun k => k, 2, 9⟩

/-- A one-instance buffer pool with 30 frames (large enough that the traces
never evict). -/
def bp30 : BPI PageData := mkBPI PageData 30 1 0

/-- C4 trace: inserts that build global depth 3 with slots 1,3,5,7 sharing
one depth-1 bucket, then three keys hashing to slot 1; the inserts of key
17 split that bucket twice with local depth < global depth (no doubling)
without updating the other sharing slots. -/
def c4run : Res (List Bool × HTS) :=
  (htNew ps4 bp30).bind
    (runInserts ps4 20 [(0,100),(2,102),(4,104),(8,108),(1,101),(9,109),(17,117)])

/-- The directory after the C4 trace. -/
def c4dir : Res DirPage := c4run.bind (fun r => readDirState r.2)

/-- The directory after the C4 trace, extracted. -/
def c4dirPage : DirPage :=
  match c4dir with
  | .ok d => d
  | _ => zeroDir

/-- C4: the claim says any two live slots agreeing on their low
`local_depth` bits hold the same bucket page id AND equal local depth,
after every committed operation.  After the C4 trace (all seven Inserts
returned true), live slots 1 and 7 agree on their masked low bits
(1 & 0b1111 = 1 = 7 & 0b1) and share bucket page 2, but carry local depths
4 and 1: the coherence invariant is violated because SplitInsert never
updates the other directory slots sharing the split bucket. -/
theorem c4_coherence_violated :
    (match c4run with | .ok (flags, _) => flags | _ => []) =
      [true, true, true, true, true, true, true] ∧
    (match c4dir with | .ok _ => true | _ => false) = true ∧
    c4dirPage.globalDepth = 4 ∧
    1 < 2 ^ c4dirPage.globalDepth ∧
    7 < 2 ^ c4dirPage.globalDepth ∧
    Nat.land 1 ((1 <<< c4dirPage.localDepths 1) - 1)
      = Nat.land 7 ((1 <<< c4dirPage.localDepths 7) - 1) ∧
    c4dirPage.bucketPids 1 = c4dirPage.bucketPids 7 ∧
    c4dirPage.localDepths 1 = 4 ∧
    c4dirPage.localDepths 7 = 1 := by
  refine ⟨rfl, rfl, rfl, by decide, by decide, rfl, rfl, rfl, rfl⟩

/-- C7 trace: as C4 but filling the depth-1 bucket shared by slots 1,3,5,7
through slot 7, so the split image 7 = 7 | (1 << 1) coincides with the
full bucket's own slot and the rehash mask (2 bits) can never equal it:
slot 7 is redirected to an empty new bucket while keys 7 and 15 stay in
the old one, now unreachable. -/
def c7run : Res (List Bool × HTS) :=
  (htNew ps4 bp30).bind
    (runInserts ps4 20 [(0,100),(2,102),(4,104),(8,108),(7,107),(15,115),(23,123)])

/-- GetValue(7) after the C7 trace. -/
def c7got : Res (Bool × List Nat × HTS) := c7run.bind (fun r => htGetValue ps4 r.2 7)

/-- Observation of a GetValue outcome. -/
def obsGet (r : Res (Bool × List Nat × HTS)) : Option (Bool × List Nat) :=
  match r with
  | .ok (b, l, _) => some (b, l)
  | _ => none

/-- C7: the claim says every successfully inserted and never removed pair is
returned by GetValue.  In the C7 trace Insert(7,107) returned true (third
from last below), nothing was removed, yet GetValue(7) returns an empty
result: the pair was stranded in a bucket no directory slot for its hash
points to. -/
theorem c7_inserted_key_lost :
    (match c7run with | .ok (flags, _) => flags | _ => []) =
      [true, true, true, true, true, true, true] ∧
    obsGet c7got = some (false, []) := by
  exact ⟨rfl, rfl⟩

/-- C6 trace prefix: table construction plus two inserts (no split yet). -/
def c6pre : Res (List Bool × HTS) :=
  (htNew ps4 bp30).bind (runInserts ps4 20 [(0,100),(2,102)])

/-- C6 trace: the third insert forces the first SplitInsert, which allocates
bucket page 3 (pinned by NewPage) and then unpins the directory INDICES 0
and 2 instead of the page ids. -/
def c6run : Res (List Bool × HTS) :=
  (htNew ps4 bp30).bind (runInserts ps4 20 [(0,100),(2,102),(4,104)])

/-- C6: the claim says every operation returns each page it borrowed, so
pin counts return to their pre-operation values.  Before Insert(4,104)
page 3 does not exist; Insert(4,104) splits, allocating bucket page 3 with
pin count 1, and its unpin calls pass the directory indices 0 and 2 as
page ids — so after the insert returns true, page 3 is still pinned. -/
theorem c6_split_leaks_pin :
    (match c6pre with | .ok (_, hts) => ptLookup hts.bp.page_table 3 | _ => some 99) = none ∧
    (match c6run with | .ok (flags, _) => flags | _ => []) = [true, true, true] ∧
    (match c6run with
     | .ok (_, hts) =>
         match ptLookup hts.bp.page_table 3 with
         | some f => some (hts.bp.pages.getD f default).pin_count
         | none => none
     | _ => none) = some 1 := by
  exact ⟨rfl, rfl, rfl⟩

/-! ### C5: saturated insert never returns -/

/-- Parameters with a constant hash function (every key collides on every
bit) and `MAX_DEPTH = 2^... = 3`: splits can never separate the keys. -/
def ps5 : HTParams := ⟨fun _ => 1, 2, 3⟩

/-- A one-instance pool with 10 frames for the C5 trace. -/
def bp10 : BPI PageData := mkBPI PageData 10 1 0

/-- C5 setup: construct the table and fill the slot-1 bucket with two pairs
whose hashes agree on all bits (both succeed). -/
def c5setup : Res (List Bool × HTS) :=
  (htNew ps5 bp10).bind (runInserts ps5 10 [(10, 0), (11, 0)])

/-- The saturated table state. -/
def c5st : HTS :=
  match c5setup with
  | .ok (_, hts) => hts
  | _ => ⟨0, mkBPI PageData 0 1 0⟩

/-- Adding fuel does not change a result that was not fuel exhaustion: the
Insert/SplitInsert recursion is deterministic and fuel only truncates it. -/
theorem ihOp_mono (ps : HTParams) :
    ∀ (n : Nat) (mode : InsMode) (hts : HTS) (k v : Nat),
      ihOp ps n mode hts k v ≠ .fuelOut →
      ihOp ps (n + 1) mode hts k v = ihOp ps n mode hts k v := by
  intro n
  induction n with
  | zero => intro mode hts k v h; exact absurd rfl h
  | succ m ih =>
    intro mode hts k v h
    simp only [ihOp] at h ⊢
    cases hs : ihStep ps mode hts k v with
    | ok s =>
      try simp only [hs] at h ⊢
      cases s with
      | inl r => all_goals rfl
      | inr pr =>
        obtain ⟨m', hts'⟩ := pr
        all_goals exact ih m' hts' k v h
    | crash =>
      try simp only [hs] at h ⊢
      all_goals rfl
    | fuelOut =>
      try simp only [hs] at h ⊢
      all_goals rfl

/-- By fuel 6 the saturated insert has split three times and crashed trying
to increment the global depth past MAX_DEPTH; more fuel keeps the crash. -/
theorem c5_crash_from_six : ∀ m : Nat, ihOp ps5 (6 + m) InsMode.ins c5st 12 0 = .crash := by
  intro m
  induction m with
  | zero => rfl
  | succ mm ih =>
    have hstep : 6 + (mm + 1) = (6 + mm) + 1 := by omega
    rw [hstep, ihOp_mono ps5 (6 + mm) InsMode.ins c5st 12 0 (by rw [ih]; exact fun hh => Res.noConfusion hh)]
    exact ih

/-- C5: the claim says Insert detects the saturated case (full bucket, all
entries hashing to one slot mod `2^MAX_DEPTH`, global depth at MAX_DEPTH
after the forced doublings) and returns false.  The source has no such
check: on the saturated table `c5st` (both setup inserts returned true and
the bucket is full of all-colliding keys), Insert(12,0) never returns a
boolean for ANY fuel — it recurses Insert → SplitInsert, doubling the
directory each round, until the directory page bound is breached. -/
theorem c5_saturated_insert_never_returns :
    (match c5setup with | .ok (flags, _) => flags | _ => []) = [true, true] ∧
    ∀ fuel : Nat, ihOp ps5 fuel InsMode.ins c5st 12 0 = Res.crash ∨
                  ihOp ps5 fuel InsMode.ins c5st 12 0 = Res.fuelOut := by
  refine ⟨rfl, ?_⟩
  intro fuel
  by_cases hlt : fuel < 6
  · interval_cases fuel
    · exact Or.inr rfl
    · exact Or.inr rfl
    · exact Or.inr rfl
    · exact Or.inr rfl
    · exact Or.inr rfl
    · exact Or.inr rfl
  · have hm : fuel = 6 + (fuel - 6) := by omega
    rw [hm, c5_crash_from_six (fuel - 6)]
    exact Or.inl rfl
